import Mathlib

/-!
Shallow embedding of the Vend-O-Matic HTTP vending machine (src/app.py).

The machine state holds a coin balance and an inventory list, both Python
integers. Each HTTP handler of `VendingHandler` is embedded as a pure
function threading the state explicitly. I/O details are abstracted at the
points where `app.py` itself crosses them:
  * the raw request body together with `json.loads` is represented by an
    `Option Json` (`none` models a `json.JSONDecodeError`);
  * the `Content-Length` header is the raw header string (`Option String`,
    `none` when absent), and Python's `int(str)` conversion is modelled by
    `pyIntParse`;
  * an uncaught Python exception escaping a handler is the `Outcome.exn`
    constructor, carrying the exception class name;
  * a response's `headers` field records exactly the custom headers the
    handler passes to `_send_no_content` / `_send_json` /
    `_send_error_plain` (the fixed Content-Type/Content-Length headers
    added by `_send_json` are not part of the model).
-/

namespace VendOMatic

/-- Result of `json.loads`: JSON values, as the Python handlers see them.
Floats are not modelled; no handler behaviour examined here depends on
them. Objects keep their key/value pairs in order; `dictGet` below gives
the later duplicate key precedence, as `json.loads` does. -/
inductive Json where
  | null
  | bool (b : Bool)
  | int (n : Int)
  | str (s : String)
  | arr (elems : List Json)
  | obj (fields : List (String × Json))

/-- Module constant `ITEM_PRICE = 2` of app.py. -/
def ITEM_PRICE : Int := 2

/-- The `_state` dict of app.py: coin balance and per-item stock. -/
structure MachineState where
  coins : Int
  inventory : List Int
deriving Repr

/-- Initial `_state`: `{"coins": 0, "inventory": [5, 5, 5]}`. -/
def initState : MachineState := MachineState.mk 0 [5, 5, 5]

/-- An HTTP response: status code, optional JSON body, and the custom
headers the handler attaches. -/
structure Response where
  status : Nat
  body : Option Json
  headers : List (String × String)

/-- Observable result of running one handler: either a response was sent
(with the state left behind), or an uncaught Python exception escaped
(named by its class), leaving the state behind as well. -/
inductive Outcome where
  | resp (r : Response) (after : MachineState)
  | exn (name : String) (after : MachineState)

/-- State left behind by a handler run. -/
def Outcome.state : Outcome → MachineState
  | .resp _ s => s
  | .exn _ s => s

/-- Drop leading whitespace characters from a character list. -/
def dropLeadingWs : List Char → List Char
  | [] => []
  | c :: rest => if c.isWhitespace then dropLeadingWs rest else c :: rest

/-- Strip whitespace from both ends of a character list, as Python's
`int(str)` does before converting. -/
def pyStrip (cs : List Char) : List Char :=
  ((dropLeadingWs (dropLeadingWs cs).reverse)).reverse

/-- Models Python `int(str)`: strip surrounding whitespace, optional sign,
then a nonempty run of ASCII decimal digits; anything else raises
`ValueError`, modelled as `none`. (Digit-group underscores and non-ASCII
digits, which CPython also accepts, are not modelled; no input considered
here uses them.) -/
def pyIntParse (s : String) : Option Int :=
  match pyStrip s.data with
  | [] => none
  | c :: rest =>
    let signedDigits : Bool × List Char :=
      if c = '-' then (true, rest)
      else if c = '+' then (false, rest)
      else (false, c :: rest)
    match signedDigits with
    | (neg, digits) =>
      if digits.isEmpty then none
      else if digits.all Char.isDigit then
        let mag : Nat := digits.foldl (fun acc c => acc * 10 + (c.toNat - 48)) 0
        some (if neg then -(mag : Int) else (mag : Int))
      else none

/-- Result of `_read_json_body`: the `int()` call on the Content-Length
header may raise (`exn`), `json.loads` may fail (`parseError`, the
function returns `None`), or a JSON value is produced (`{}` when the
length is zero). -/
inductive BodyRead where
  | exn (name : String)
  | parseError
  | value (j : Json)

/-- Embeds `_read_json_body`: `length = int(self.headers.get("Content-Length", 0))`;
if `length == 0` return `{}`; else read the body and `json.loads` it,
returning `None` (here `parseError`) on `json.JSONDecodeError`. -/
def readJsonBody (clHeader : Option String) (bodyJson : Option Json) : BodyRead :=
  match clHeader with
  | none => BodyRead.value (Json.obj [])
  | some s =>
    match pyIntParse s with
    | none => BodyRead.exn "ValueError"
    | some n =>
      if n = 0 then BodyRead.value (Json.obj [])
      else
        match bodyJson with
        | none => BodyRead.parseError
        | some j => BodyRead.value j

/-- Models Python `dict.get(key, default)` on a parsed JSON object; with
duplicate keys `json.loads` keeps the last, so lookup scans from the end. -/
def dictGet (fields : List (String × Json)) (key : String) (dflt : Json) : Json :=
  match fields.reverse.find? (fun kv => kv.1 == key) with
  | some kv => kv.2
  | none => dflt

/-- Models the check `coin not in (0, 1)` (negated): Python `==` equates
`True` with `1` and `False` with `0`, so booleans pass the check too. -/
def coinValid (j : Json) : Bool :=
  match j with
  | Json.int n => n == 0 || n == 1
  | Json.bool _ => true
  | _ => false

/-- Numeric value Python's `+=` adds for a coin that passed `coinValid`. -/
def coinAmount (j : Json) : Int :=
  match j with
  | Json.int n => n
  | Json.bool b => if b then 1 else 0
  | _ => 0

/-- Core InsertCoin step (the `with _lock:` block of `_handle_root_put`,
lines 112-114): `coins += coin; total = coins`. Returns the new state and
the new total. -/
def insertCoin (s : MachineState) (amount : Int) : MachineState × Int :=
  let s' := MachineState.mk (s.coins + amount) s.inventory
  (s', s'.coins)

/-- Core CancelTransaction step (the `with _lock:` block of
`_handle_root_delete`): `returned = coins; coins = 0`. Returns the new
state and the returned amount. -/
def cancelTransaction (s : MachineState) : MachineState × Int :=
  (MachineState.mk 0 s.inventory, s.coins)

/-- Embeds `_handle_root_put` (PUT /): read the JSON body (400 when it is
`None` — decode failure or the JSON literal `null`), default a missing
`coin` field to 0, reject a value outside `{0, 1}` with 400, otherwise
add it to the balance and reply 204 with `X-Coins`. A body that parses to
a non-dict, non-None value reaches `body.get` and raises
`AttributeError`. -/
def handleRootPut (clHeader : Option String) (bodyJson : Option Json)
    (s : MachineState) : Outcome :=
  match readJsonBody clHeader bodyJson with
  | BodyRead.exn name => Outcome.exn name s
  | BodyRead.parseError => Outcome.resp (Response.mk 400 none []) s
  | BodyRead.value Json.null => Outcome.resp (Response.mk 400 none []) s
  | BodyRead.value (Json.obj fields) =>
    let coin := dictGet fields "coin" (Json.int 0)
    if coinValid coin then
      let r := insertCoin s (coinAmount coin)
      Outcome.resp (Response.mk 204 none [("X-Coins", toString r.2)]) r.1
    else Outcome.resp (Response.mk 400 none []) s
  | BodyRead.value _ => Outcome.exn "AttributeError" s

/-- Embeds `_handle_root_delete` (DELETE /): cancel the transaction, reply
204 with the returned amount in `X-Coins`. -/
def handleRootDelete (s : MachineState) : Outcome :=
  let r := cancelTransaction s
  Outcome.resp (Response.mk 204 none [("X-Coins", toString r.2)]) r.1

/-- Embeds `_handle_inventory_get` (GET /inventory): 200 with a snapshot
copy of the inventory as a JSON array. -/
def handleInventoryGet (s : MachineState) : Outcome :=
  Outcome.resp (Response.mk 200 (some (Json.arr (s.inventory.map Json.int))) []) s

/-- Embeds `_handle_item_get` (GET /inventory/:id) for an id already
validated by `_parse_path` to be in range. -/
def handleItemGet (itemId : Nat) (s : MachineState) : Outcome :=
  Outcome.resp (Response.mk 200 (some (Json.int (s.inventory.getD itemId 0))) []) s

/-- Embeds `_handle_item_put` (PUT /inventory/:id) for an id already
validated by `_parse_path` to be in range: check out-of-stock (404), then
insufficient funds (403), else decrement stock, deduct the price and
reply 200 with `{"quantity": 1}` plus `X-Coins` / `X-Inventory-Remaining`. -/
def handleItemPut (itemId : Nat) (s : MachineState) : Outcome :=
  let qty := s.inventory.getD itemId 0
  let coins := s.coins
  if qty = 0 then
    Outcome.resp (Response.mk 404 none [("X-Coins", toString coins)]) s
  else if coins < ITEM_PRICE then
    Outcome.resp (Response.mk 403 none [("X-Coins", toString coins)]) s
  else
    let inv' := s.inventory.set itemId (qty - 1)
    let newQty := inv'.getD itemId 0
    let s' := MachineState.mk (coins - ITEM_PRICE) inv'
    Outcome.resp
      (Response.mk 200 (some (Json.obj [("quantity", Json.int 1)]))
        [("X-Coins", toString s'.coins), ("X-Inventory-Remaining", toString newQty)])
      s'

/-- Embeds the item-id validation of `_parse_path` (lines 82-92): the id
segment's `int()` parse result (`none` when `int` raised `ValueError`) is
range-checked against the inventory length; `none` means `_parse_path`
sends 404 and the route handler is never invoked. -/
def validateItemId (pid : Option Int) (inv : List Int) : Option Nat :=
  match pid with
  | none => none
  | some v => if v < 0 ∨ (inv.length : Int) ≤ v then none else some v.toNat

/-- PUT /inventory/{seg} as dispatched by `do_PUT`: validate the id, 404
without touching the core on failure, else run the purchase handler. -/
def dispatchItemPut (pid : Option Int) (s : MachineState) : Outcome :=
  match validateItemId pid s.inventory with
  | none => Outcome.resp (Response.mk 404 none []) s
  | some i => handleItemPut i s

/-- GET /inventory/{seg} as dispatched by `do_GET`: validate the id, 404
without touching the core on failure, else run the quantity handler. -/
def dispatchItemGet (pid : Option Int) (s : MachineState) : Outcome :=
  match validateItemId pid s.inventory with
  | none => Outcome.resp (Response.mk 404 none []) s
  | some i => handleItemGet i s

/-- One core operation, for reasoning about operation sequences. -/
inductive Op where
  | insert (amount : Int)
  | cancel
  | snapshot
  | getQty (i : Nat)
  | purchase (i : Nat)

/-- State transition of one operation, read off the corresponding handler. -/
def applyOp (s : MachineState) : Op → MachineState
  | Op.insert a => (insertCoin s a).1
  | Op.cancel => (cancelTransaction s).1
  | Op.snapshot => (handleInventoryGet s).state
  | Op.getQty i => (handleItemGet i s).state
  | Op.purchase i => (handleItemPut i s).state

/-- Run a sequence of operations from a state. -/
def run (s : MachineState) (ops : List Op) : MachineState :=
  ops.foldl applyOp s

/-- An operation as the HTTP layer would actually deliver it to the core:
coin inserts carry a validated amount in `{0, 1}` and item ids have passed
the `_parse_path` range check against the 3-item inventory. -/
def legalOp : Op → Prop
  | Op.insert a => a = 0 ∨ a = 1
  | Op.cancel => True
  | Op.snapshot => True
  | Op.getQty i => i < 3
  | Op.purchase i => i < 3

instance : (op : Op) → Decidable (legalOp op)
  | Op.insert a => inferInstanceAs (Decidable (a = 0 ∨ a = 1))
  | Op.cancel => inferInstanceAs (Decidable True)
  | Op.snapshot => inferInstanceAs (Decidable True)
  | Op.getQty i => inferInstanceAs (Decidable (i < 3))
  | Op.purchase i => inferInstanceAs (Decidable (i < 3))

/-- The documented state invariant: non-negative balance and stock. -/
def Inv (s : MachineState) : Prop :=
  0 ≤ s.coins ∧ ∀ x ∈ s.inventory, 0 ≤ x

instance (s : MachineState) : Decidable (Inv s) :=
  inferInstanceAs (Decidable (0 ≤ s.coins ∧ ∀ x ∈ s.inventory, 0 ≤ x))

/-! Helper lemmas about the purchase handler, shared by several results. -/

/-- With zero stock the purchase handler sends 404 and keeps the state. -/
theorem handleItemPut_stockZero (s : MachineState) (i : Nat)
    (h : s.inventory.getD i 0 = 0) :
    handleItemPut i s =
      Outcome.resp (Response.mk 404 none [("X-Coins", toString s.coins)]) s := by
  simp only [handleItemPut]
  rw [if_pos h]

/-- With stock but a balance below the price the purchase handler sends
403 and keeps the state. -/
theorem handleItemPut_lowCoins (s : MachineState) (i : Nat)
    (h : ¬s.inventory.getD i 0 = 0) (hc : s.coins < ITEM_PRICE) :
    handleItemPut i s =
      Outcome.resp (Response.mk 403 none [("X-Coins", toString s.coins)]) s := by
  simp only [handleItemPut]
  rw [if_neg h, if_pos hc]

/-- With stock and a sufficient balance the purchase handler decrements
the stock, deducts the price and sends 200. -/
theorem handleItemPut_successEq (s : MachineState) (i : Nat)
    (hlen : i < s.inventory.length)
    (h : ¬s.inventory.getD i 0 = 0) (hc : ¬s.coins < ITEM_PRICE) :
    handleItemPut i s =
      Outcome.resp
        (Response.mk 200 (some (Json.obj [("quantity", Json.int 1)]))
          [("X-Coins", toString (s.coins - ITEM_PRICE)),
           ("X-Inventory-Remaining", toString (s.inventory.getD i 0 - 1))])
        (MachineState.mk (s.coins - ITEM_PRICE)
          (s.inventory.set i (s.inventory.getD i 0 - 1))) := by
  have hnew : (s.inventory.set i (s.inventory.getD i 0 - 1)).getD i 0
      = s.inventory.getD i 0 - 1 := by
    rw [List.getD_eq_getElem?_getD, List.getElem?_set_self hlen, Option.getD_some]
  simp only [handleItemPut]
  rw [if_neg h, if_neg hc, hnew]

/-- C1: with stock available and a sufficient balance, PurchaseItem
succeeds in one step, decrementing the item's stock by exactly 1 and the
balance by exactly the price, leaving every other item untouched, and the
success record carries quantity 1, the new stock value and the remaining
balance. -/
theorem purchaseItem_success (s : MachineState) (i : Nat)
    (hlen : i < s.inventory.length)
    (hstock : 0 < s.inventory.getD i 0)
    (hcoins : ITEM_PRICE ≤ s.coins) :
    handleItemPut i s =
      Outcome.resp
        (Response.mk 200 (some (Json.obj [("quantity", Json.int 1)]))
          [("X-Coins", toString (s.coins - ITEM_PRICE)),
           ("X-Inventory-Remaining", toString (s.inventory.getD i 0 - 1))])
        (MachineState.mk (s.coins - ITEM_PRICE)
          (s.inventory.set i (s.inventory.getD i 0 - 1))) ∧
    (handleItemPut i s).state.coins = s.coins - ITEM_PRICE ∧
    (handleItemPut i s).state.inventory.getD i 0 = s.inventory.getD i 0 - 1 ∧
    ∀ j, j ≠ i → (handleItemPut i s).state.inventory.getD j 0 = s.inventory.getD j 0 := by
  have hq : ¬s.inventory.getD i 0 = 0 := by omega
  have hc : ¬s.coins < ITEM_PRICE := not_lt.mpr hcoins
  have hmain := handleItemPut_successEq s i hlen hq hc
  refine ⟨hmain, ?_, ?_, ?_⟩
  · rw [hmain]
    rfl
  · rw [hmain]
    simp only [Outcome.state]
    rw [List.getD_eq_getElem?_getD, List.getElem?_set_self hlen, Option.getD_some]
  · intro j hj
    rw [hmain]
    simp only [Outcome.state]
    rw [List.getD_eq_getElem?_getD, List.getElem?_set_ne (Ne.symm hj),
      List.getD_eq_getElem?_getD]

/-- C1 witness: three quarters in, buying item 2 dispenses one unit,
leaves 4 in stock, and retains one quarter of change. -/
theorem purchaseItem_success_witness :
    handleItemPut 2 (MachineState.mk 3 [5, 5, 5]) =
      Outcome.resp
        (Response.mk 200 (some (Json.obj [("quantity", Json.int 1)]))
          [("X-Coins", "1"), ("X-Inventory-Remaining", "4")])
        (MachineState.mk 1 [5, 5, 4]) :=
  (purchaseItem_success (MachineState.mk 3 [5, 5, 5]) 2 (by decide) (by decide)
    (by decide)).1

/-- C2: with zero stock for the requested item, PurchaseItem fails with
OutOfStock (404) whatever the balance is — also when the balance is below
the price — so the out-of-stock check strictly precedes the funds check
and the result is never InsufficientFunds (403). -/
theorem purchaseItem_outOfStock_priority (s : MachineState) (i : Nat)
    (_hlen : i < s.inventory.length)
    (hstock : s.inventory.getD i 0 = 0) :
    handleItemPut i s =
      Outcome.resp (Response.mk 404 none [("X-Coins", toString s.coins)]) s ∧
    ∀ r after, handleItemPut i s = Outcome.resp r after → r.status ≠ 403 := by
  refine ⟨handleItemPut_stockZero s i hstock, ?_⟩
  intro r after hr
  rw [handleItemPut_stockZero s i hstock] at hr
  cases hr
  simp

/-- C2 witness: item 1 empty and only one quarter inserted (also below
the price) still yields 404, not 403. -/
theorem purchaseItem_outOfStock_priority_witness :
    handleItemPut 1 (MachineState.mk 1 [5, 0, 5]) =
      Outcome.resp (Response.mk 404 none [("X-Coins", "1")]) (MachineState.mk 1 [5, 0, 5]) :=
  (purchaseItem_outOfStock_priority (MachineState.mk 1 [5, 0, 5]) 1 (by decide) rfl).1

/-- C3: on either failure — OutOfStock (zero stock) or InsufficientFunds
(stock available, balance below price) — the handler leaves the whole
state unchanged and reports the untouched balance in X-Coins. -/
theorem purchaseItem_failure_preserves_state (s : MachineState) (i : Nat)
    (_hlen : i < s.inventory.length)
    (hfail : s.inventory.getD i 0 = 0 ∨
      (s.inventory.getD i 0 ≠ 0 ∧ s.coins < ITEM_PRICE)) :
    handleItemPut i s =
      Outcome.resp
        (Response.mk (if s.inventory.getD i 0 = 0 then 404 else 403) none
          [("X-Coins", toString s.coins)]) s := by
  rcases hfail with h | ⟨h, hc⟩
  · rw [if_pos h]
    exact handleItemPut_stockZero s i h
  · rw [if_neg h]
    exact handleItemPut_lowCoins s i h hc

/-- C3 witness: buying item 0 with an empty balance fails with 403 and
leaves the initial state untouched. -/
theorem purchaseItem_failure_preserves_state_witness :
    handleItemPut 0 initState =
      Outcome.resp (Response.mk 403 none [("X-Coins", "0")]) initState :=
  purchaseItem_failure_preserves_state initState 0 (by decide)
    (Or.inr (by decide))

/-- A nonzero default-0 lookup means the index is in range. -/
theorem lt_length_of_getD_ne_zero {l : List Int} {i : Nat}
    (h : l.getD i 0 ≠ 0) : i < l.length := by
  by_contra hge
  push_neg at hge
  rw [List.getD_eq_getElem?_getD, List.getElem?_eq_none hge] at h
  exact h rfl

/-- The purchase transition preserves the non-negativity invariant. -/
theorem inv_purchase {s : MachineState} (hs : Inv s) (i : Nat) :
    Inv ((handleItemPut i s).state) := by
  by_cases hq : s.inventory.getD i 0 = 0
  · rw [handleItemPut_stockZero s i hq]
    exact hs
  · by_cases hc : s.coins < ITEM_PRICE
    · rw [handleItemPut_lowCoins s i hq hc]
      exact hs
    · have hlen : i < s.inventory.length := lt_length_of_getD_ne_zero hq
      rw [handleItemPut_successEq s i hlen hq hc]
      constructor
      · simp only [Outcome.state]
        have : (2 : Int) ≤ s.coins := not_lt.mp hc
        simp only [ITEM_PRICE]
        omega
      · simp only [Outcome.state]
        intro x hx
        rcases List.mem_or_eq_of_mem_set hx with hmem | hx1
        · exact hs.2 x hmem
        · have hqmem : s.inventory.getD i 0 ∈ s.inventory := by
            rw [List.getD_eq_getElem _ _ hlen]
            exact List.getElem_mem hlen
          have hq0 : 0 ≤ s.inventory.getD i 0 := hs.2 _ hqmem
          omega

/-- Every legal operation preserves the non-negativity invariant. -/
theorem inv_applyOp {s : MachineState} (hs : Inv s) {op : Op}
    (hop : legalOp op) : Inv (applyOp s op) := by
  cases op with
  | insert a =>
    rcases hop with h0 | h1
    · subst h0
      exact ⟨by have := hs.1; simp only [applyOp, insertCoin]; omega, hs.2⟩
    · subst h1
      exact ⟨by have := hs.1; simp only [applyOp, insertCoin]; omega, hs.2⟩
  | cancel => exact ⟨le_refl 0, hs.2⟩
  | snapshot => exact hs
  | getQty i => exact hs
  | purchase i => exact inv_purchase hs i

/-- Running legal operations from an invariant state keeps the invariant. -/
theorem inv_run {s : MachineState} (hs : Inv s) :
    ∀ ops : List Op, (∀ op ∈ ops, legalOp op) → Inv (run s ops) := by
  intro ops
  induction ops generalizing s with
  | nil => intro _; exact hs
  | cons op rest ih =>
    intro hops
    have hstep : Inv (applyOp s op) := inv_applyOp hs (hops op (List.mem_cons_self op rest))
    exact ih hstep fun o ho => hops o (List.mem_cons_of_mem op ho)

/-- C4: from the initial state (0 coins, inventory [5,5,5]), any finite
sequence of InsertCoin (amount 0 or 1), CancelTransaction,
GetInventorySnapshot, GetItemQuantity and PurchaseItem operations keeps
the balance and every stock entry non-negative after each step: the state
reached after every prefix of the sequence satisfies the invariant. -/
theorem opSequence_invariant (ops : List Op) (hops : ∀ op ∈ ops, legalOp op)
    (pre : List Op) (hpre : pre <+: ops) :
    Inv (run initState pre) := by
  have hinit : Inv initState := by decide
  exact inv_run hinit pre fun op hop => hops op (hpre.subset hop)

/-- C4 witness: two coins inserted then a purchase of item 0, checked
after the full sequence. -/
theorem opSequence_invariant_witness :
    Inv (run initState [Op.insert 1, Op.insert 1, Op.purchase 0]) :=
  opSequence_invariant [Op.insert 1, Op.insert 1, Op.purchase 0] (by decide)
    [Op.insert 1, Op.insert 1, Op.purchase 0] List.prefix_rfl

/-- C5: for an amount of 0 or 1, InsertCoin adds exactly that amount to
the balance, leaves the inventory untouched, and returns the total as it
stands right after the increment; inserting 0 is a no-op returning the
unchanged state and total. -/
theorem insertCoin_spec (s : MachineState) (a : Int) (ha : a = 0 ∨ a = 1) :
    insertCoin s a = (MachineState.mk (s.coins + a) s.inventory, s.coins + a) ∧
    (a = 0 → insertCoin s a = (s, s.coins)) := by
  constructor
  · rfl
  · intro h0
    subst h0
    cases s
    simp [insertCoin]

/-- C5 witness: inserting one coin into the fresh machine yields total 1
and the same inventory. -/
theorem insertCoin_spec_witness :
    insertCoin initState 1 = (MachineState.mk 1 [5, 5, 5], 1) :=
  (insertCoin_spec initState 1 (Or.inr rfl)).1

/-- C6: CancelTransaction returns the balance held just before the call,
zeroes the balance, and keeps the inventory; with an already-empty
balance it returns 0 and changes nothing, so a second consecutive
cancellation always returns 0. -/
theorem cancelTransaction_spec (s : MachineState) :
    cancelTransaction s = (MachineState.mk 0 s.inventory, s.coins) ∧
    (s.coins = 0 → cancelTransaction s = (s, 0)) ∧
    (cancelTransaction (cancelTransaction s).1).2 = 0 := by
  refine ⟨rfl, ?_, rfl⟩
  intro h0
  cases s
  simp only at h0
  subst h0
  rfl

/-- C6 witness: cancelling the fresh machine (no coins) returns 0 and is
the identity on the state. -/
theorem cancelTransaction_spec_witness :
    cancelTransaction initState = (initState, 0) :=
  (cancelTransaction_spec initState).2.1 rfl

/-- C7 counterexample: two PUT / requests the claim says must be rejected
with 400 are in fact accepted with 204. First, a JSON object body without
a `coin` field: the missing field defaults to 0 and the request succeeds
with the unchanged total. Second, the body with the boolean value
`{"coin": true}` — a value outside {0, 1} — passes Python's `in (0, 1)`
check (`True == 1`) and is accepted, even crediting one coin. -/
theorem absentCoin_accepted_counterexample :
    (handleRootPut (some "2") (some (Json.obj [])) initState =
      Outcome.resp (Response.mk 204 none [("X-Coins", "0")]) initState ∧
    handleRootPut (some "2") (some (Json.obj [])) initState ≠
      Outcome.resp (Response.mk 400 none []) initState) ∧
    (handleRootPut (some "14") (some (Json.obj [("coin", Json.bool true)])) initState =
      Outcome.resp (Response.mk 204 none [("X-Coins", "1")])
        (MachineState.mk 1 [5, 5, 5]) ∧
    handleRootPut (some "14") (some (Json.obj [("coin", Json.bool true)])) initState ≠
      Outcome.resp (Response.mk 400 none []) initState) := by
  refine ⟨⟨rfl, fun h => ?_⟩, ⟨rfl, fun h => ?_⟩⟩
  · have h0 : handleRootPut (some "2") (some (Json.obj [])) initState =
        Outcome.resp (Response.mk 204 none [("X-Coins", "0")]) initState := rfl
    rw [h0] at h
    simp at h
  · have h0 : handleRootPut (some "14") (some (Json.obj [("coin", Json.bool true)])) initState =
        Outcome.resp (Response.mk 204 none [("X-Coins", "1")])
          (MachineState.mk 1 [5, 5, 5]) := rfl
    rw [h0] at h
    simp at h

/-- Evaluating `readJsonBody` on a header that parses to a nonzero length
and a body that parses as a JSON object. -/
theorem readJsonBody_obj (cl : String) (n : Int) (hcl : pyIntParse cl = some n)
    (hn : n ≠ 0) (fields : List (String × Json)) :
    readJsonBody (some cl) (some (Json.obj fields)) =
      BodyRead.value (Json.obj fields) := by
  simp only [readJsonBody, hcl, if_neg hn]

/-- C7 amended: on PUT / with a parsed JSON object body, a `coin` field
whose value fails Python's `in (0, 1)` check is rejected with 400, no
headers and no state change, before the insert runs. That check accepts
more than the integers 0 and 1: an absent `coin` field is not rejected —
it defaults to 0 and the request succeeds with 204 and the unchanged
total — and a boolean value is not rejected either, since Python equates
`True` with 1 (and `False` with 0): `{"coin": true}` succeeds with 204
and credits one coin. -/
theorem coin_validation_spec (cl : String) (n : Int) (hcl : pyIntParse cl = some n)
    (hn : n ≠ 0) (fields : List (String × Json)) (s : MachineState) :
    (coinValid (dictGet fields "coin" (Json.int 0)) = false →
      handleRootPut (some cl) (some (Json.obj fields)) s =
        Outcome.resp (Response.mk 400 none []) s) ∧
    ((∀ kv ∈ fields, kv.1 ≠ "coin") →
      handleRootPut (some cl) (some (Json.obj fields)) s =
        Outcome.resp (Response.mk 204 none [("X-Coins", toString s.coins)]) s) ∧
    (dictGet fields "coin" (Json.int 0) = Json.bool true →
      handleRootPut (some cl) (some (Json.obj fields)) s =
        Outcome.resp (Response.mk 204 none [("X-Coins", toString (s.coins + 1))])
          (MachineState.mk (s.coins + 1) s.inventory)) := by
  have hbody := readJsonBody_obj cl n hcl hn fields
  refine ⟨?_, ?_, ?_⟩
  · intro hbad
    simp only [handleRootPut, hbody, hbad]
    rfl
  · intro habsent
    have hfind : fields.reverse.find? (fun kv => kv.1 == "coin") = none := by
      rw [List.find?_eq_none]
      intro kv hkv
      simpa using habsent kv (List.mem_reverse.mp hkv)
    have hget : dictGet fields "coin" (Json.int 0) = Json.int 0 := by
      simp only [dictGet, hfind]
    simp only [handleRootPut, hbody, hget]
    cases s with
    | mk c inv =>
      simp only [coinValid, coinAmount, insertCoin]
      norm_num
  · intro hbool
    simp only [handleRootPut, hbody, hbool]
    rfl

/-- C7 amended witness: a string-valued coin is rejected with 400, an
object without a coin field is accepted with 204, and a boolean true coin
is accepted with 204 crediting one coin, all on the fresh machine. -/
theorem coin_validation_spec_witness :
    handleRootPut (some "2") (some (Json.obj [("coin", Json.str "two")])) initState =
      Outcome.resp (Response.mk 400 none []) initState ∧
    handleRootPut (some "2") (some (Json.obj [("other", Json.int 1)])) initState =
      Outcome.resp (Response.mk 204 none [("X-Coins", "0")]) initState ∧
    handleRootPut (some "14") (some (Json.obj [("coin", Json.bool true)])) initState =
      Outcome.resp (Response.mk 204 none [("X-Coins", "1")])
        (MachineState.mk 1 [5, 5, 5]) := by
  refine ⟨?_, ?_, ?_⟩
  · exact (coin_validation_spec "2" 2 rfl (by decide)
      [("coin", Json.str "two")] initState).1 rfl
  · exact (coin_validation_spec "2" 2 rfl (by decide)
      [("other", Json.int 1)] initState).2.1 (by decide)
  · exact (coin_validation_spec "14" 14 rfl (by decide)
      [("coin", Json.bool true)] initState).2.2 rfl

/-- C8: PUT / handling is not total — a body that is valid JSON but not
an object (here the array `[1]` with Content-Length 3) reaches
`body.get` and raises an uncaught AttributeError, and a non-numeric
Content-Length header makes `int()` raise an uncaught ValueError; neither
run produces one of the defined status codes. -/
theorem rootPut_uncaught_exceptions :
    handleRootPut (some "3") (some (Json.arr [Json.int 1])) initState =
      Outcome.exn "AttributeError" initState ∧
    handleRootPut (some "abc") none initState =
      Outcome.exn "ValueError" initState :=
  ⟨rfl, rfl⟩

/-- C9: an id segment that fails `int()` or falls outside [0, N) is
answered 404 by `_parse_path` itself: the validator yields nothing, both
item routes send a bare 404, and the state is untouched — the core
handlers are never invoked. -/
theorem invalid_itemId_rejected (s : MachineState) (pid : Option Int)
    (h : pid = none ∨ ∃ v, pid = some v ∧ (v < 0 ∨ (s.inventory.length : Int) ≤ v)) :
    validateItemId pid s.inventory = none ∧
    dispatchItemPut pid s = Outcome.resp (Response.mk 404 none []) s ∧
    dispatchItemGet pid s = Outcome.resp (Response.mk 404 none []) s := by
  have hval : validateItemId pid s.inventory = none := by
    rcases h with h | ⟨v, hv, hrange⟩
    · rw [h]
      rfl
    · rw [hv]
      simp only [validateItemId]
      rw [if_pos hrange]
  refine ⟨hval, ?_, ?_⟩
  · simp only [dispatchItemPut, hval]
  · simp only [dispatchItemGet, hval]

/-- C9 witness: id 99 on the 3-item machine is rejected with 404 on both
routes without reaching the core. -/
theorem invalid_itemId_rejected_witness :
    validateItemId (some 99) initState.inventory = none ∧
    dispatchItemPut (some 99) initState = Outcome.resp (Response.mk 404 none []) initState ∧
    dispatchItemGet (some 99) initState = Outcome.resp (Response.mk 404 none []) initState :=
  invalid_itemId_rejected initState (some 99)
    (Or.inr ⟨99, rfl, Or.inr (by decide)⟩)

/-- C10: a PUT / with no body — Content-Length absent or parsing to 0 —
is not treated as malformed: the body reads as an empty object, the
missing `coin` field defaults to 0, and the request succeeds with 204,
X-Coins carrying the unchanged total, and the state untouched. -/
theorem emptyBody_insert_noop (ch : Option String) (b : Option Json)
    (s : MachineState)
    (h : ch = none ∨ ∃ v, ch = some v ∧ pyIntParse v = some 0) :
    handleRootPut ch b s =
      Outcome.resp (Response.mk 204 none [("X-Coins", toString s.coins)]) s := by
  have hbody : readJsonBody ch b = BodyRead.value (Json.obj []) := by
    rcases h with h | ⟨v, hv, hparse⟩
    · rw [h]
      rfl
    · rw [hv]
      simp only [readJsonBody, hparse, if_pos]
  simp only [handleRootPut, hbody]
  cases s with
  | mk c inv =>
    simp only [dictGet, coinValid, coinAmount, insertCoin]
    norm_num

/-- C10 witness: a PUT / without Content-Length on the fresh machine
answers 204 with X-Coins 0 and leaves the state as it was. -/
theorem emptyBody_insert_noop_witness :
    handleRootPut none none initState =
      Outcome.resp (Response.mk 204 none [("X-Coins", "0")]) initState :=
  emptyBody_insert_noop none none initState (Or.inl rfl)

end VendOMatic
